import Mathlib

/-!
Shallow embedding of the persistence layer of the discord chat bot
(`src/core/database.py`, class `DatabaseManager`), together with proofs of
the specified properties of that layer.

The database state (the three sqlite tables `points`, `metadata`,
`guild_settings`) and the in-process settings cache are modelled as one
explicit `State` record; each `async` method of `DatabaseManager` becomes a
pure function from `State` to a result paired with the successor `State`.
The `asyncio` thread dispatch and the one-shot schema initialisation are not
modelled: they do not affect the values computed by any operation.

Note on naming: the source column/field `prefix` is rendered `pfx` here
(`prefix` is a reserved token in Lean); everything else keeps the source
names.
-/

namespace DiscordBot

/-- One row of the `guild_settings` table, minus the `guild_id` key.
Each column is nullable (`Option`). -/
structure GuildRow where
  pfx : Option String
  welcome_channel_id : Option Int
  mod_role_id : Option Int
  admin_role_id : Option Int
deriving DecidableEq

/-- The `GuildSettings` frozen dataclass of `src/core/database.py`. -/
structure GuildSettings where
  guild_id : Int
  pfx : Option String
  welcome_channel_id : Option Int
  mod_role_id : Option Int
  admin_role_id : Option Int
deriving DecidableEq

/-- Association-list lookup for the `points` table
(`SELECT balance FROM points WHERE user_id = ?`). -/
def points_lookup : List (Int × Int) → Int → Option Int
  | [], _ => none
  | (u, b) :: rest, uid => if u = uid then some b else points_lookup rest uid

/-- Upsert into the `points` table
(`INSERT ... ON CONFLICT(user_id) DO UPDATE SET balance=excluded.balance`). -/
def points_upsert : List (Int × Int) → Int → Int → List (Int × Int)
  | [], uid, bal => [(uid, bal)]
  | (u, b) :: rest, uid, bal =>
      if u = uid then (uid, bal) :: rest else (u, b) :: points_upsert rest uid bal

/-- Association-list lookup for the `metadata` table. -/
def meta_lookup : List (String × String) → String → Option String
  | [], _ => none
  | (k, v) :: rest, key => if k = key then some v else meta_lookup rest key

/-- Upsert into the `metadata` table
(`INSERT ... ON CONFLICT(key) DO UPDATE SET value=excluded.value`). -/
def meta_upsert : List (String × String) → String → String → List (String × String)
  | [], key, val => [(key, val)]
  | (k, v) :: rest, key, val =>
      if k = key then (key, val) :: rest else (k, v) :: meta_upsert rest key val

/-- The whole persistent and in-process state of a `DatabaseManager`:
the three tables, the settings cache and the constructor argument
`default_prefix` (rendered `defaultPfx`). -/
structure State where
  points : List (Int × Int)
  metadata : List (String × String)
  guilds : Int → Option GuildRow
  cache : Int → Option GuildSettings
  defaultPfx : String

/-- The state of a freshly constructed manager over an empty database:
all tables empty, cache empty. -/
def initState (dp : String) : State :=
  { points := []
    metadata := []
    guilds := fun _ => none
    cache := fun _ => none
    defaultPfx := dp }

/-- Embeds `DatabaseManager._row_to_settings`: synthesize an all-null settings
value when no row exists, otherwise copy the columns of the row. -/
def row_to_settings (guild_id : Int) (row : Option GuildRow) : GuildSettings :=
  match row with
  | none =>
      { guild_id := guild_id
        pfx := none
        welcome_channel_id := none
        mod_role_id := none
        admin_role_id := none }
  | some r =>
      { guild_id := guild_id
        pfx := r.pfx
        welcome_channel_id := r.welcome_channel_id
        mod_role_id := r.mod_role_id
        admin_role_id := r.admin_role_id }

/-- The `query()` path of `DatabaseManager.get_guild_settings`: read the
table row, convert it, and repopulate the cache (line 119 of the source
stores the fresh value unconditionally). -/
def refresh (s : State) (guild_id : Int) : GuildSettings × State :=
  let settings := row_to_settings guild_id (s.guilds guild_id)
  (settings,
    { s with cache := fun g => if g = guild_id then some settings else s.cache g })

/-- Embeds `DatabaseManager.get_guild_settings(guild_id, use_cache)`: cache-first
read; on a cache miss (or with the bypass flag) run the query path.
Returns the settings and the successor state. -/
def get_guild_settings (s : State) (guild_id : Int) (use_cache : Bool) :
    GuildSettings × State :=
  match use_cache with
  | false => refresh s guild_id
  | true =>
      match s.cache guild_id with
      | some cached => (cached, s)
      | none => refresh s guild_id

/-- The single-column updates that the four mutators pass to
`_upsert_guild_fields` (each caller passes a one-entry dict). -/
inductive GuildUpdate where
  | setPfx (v : Option String)
  | setWelcome (v : Option Int)
  | setMod (v : Option Int)
  | setAdmin (v : Option Int)

/-- The `ON CONFLICT ... DO UPDATE SET column=excluded.column` effect of the
upsert on an existing row: only the named column changes. -/
def applyUpdate (r : GuildRow) : GuildUpdate → GuildRow
  | .setPfx v => { r with pfx := v }
  | .setWelcome v => { r with welcome_channel_id := v }
  | .setMod v => { r with mod_role_id := v }
  | .setAdmin v => { r with admin_role_id := v }

/-- A freshly inserted row before the named column is set: every column is
NULL (the sqlite column default). -/
def emptyRow : GuildRow :=
  { pfx := none, welcome_channel_id := none, mod_role_id := none, admin_role_id := none }

/-- Embeds `DatabaseManager._upsert_guild_fields`: insert a new row (all other
columns NULL) or update only the named column of the existing row, then
evict the cache entry of the guild (`self._settings_cache.pop(guild_id, None)`). -/
def upsert_guild_fields (s : State) (guild_id : Int) (u : GuildUpdate) : State :=
  let newRow := applyUpdate ((s.guilds guild_id).getD emptyRow) u
  { s with
      guilds := fun g => if g = guild_id then some newRow else s.guilds g
      cache := fun g => if g = guild_id then none else s.cache g }

/-- The Python `str.strip()` operation: drop leading and trailing whitespace
(restricted to ASCII whitespace; the full Unicode whitespace set of Python
is not exercised by this repository). -/
def py_strip (s : String) : String :=
  String.mk
    (((s.data.dropWhile Char.isWhitespace).reverse.dropWhile
        Char.isWhitespace).reverse)

/-- The normalisation of `set_guild_prefix`:
`normalised = prefix.strip() if isinstance(prefix, str) else None` followed
by `normalised or None` (an empty string is falsy, so it becomes NULL). -/
def normalize_pfx (p : Option String) : Option String :=
  match p with
  | some v => if py_strip v = "" then none else some (py_strip v)
  | none => none

/-- Embeds `DatabaseManager.set_guild_prefix`: store the normalised value, then
reload the settings bypassing the cache. -/
def set_guild_pfx (s : State) (guild_id : Int) (p : Option String) :
    GuildSettings × State :=
  get_guild_settings (upsert_guild_fields s guild_id (.setPfx (normalize_pfx p)))
    guild_id false

/-- Embeds `DatabaseManager.reset_guild_prefix`: store NULL, then reload. -/
def reset_guild_pfx (s : State) (guild_id : Int) : GuildSettings × State :=
  get_guild_settings (upsert_guild_fields s guild_id (.setPfx none)) guild_id false

/-- The Python `x or default` idiom for an optional string field: `None` and the
empty string both fall back to the default. -/
def str_or (a : Option String) (b : String) : String :=
  match a with
  | some v => if v = "" then b else v
  | none => b

/-- Embeds `DatabaseManager.get_prefix`: the default for a null guild, otherwise
`settings.prefix or self.default_prefix` over a cache-first read. -/
def get_pfx (s : State) (guild_id : Option Int) : String × State :=
  match guild_id with
  | none => (s.defaultPfx, s)
  | some g =>
      let r := get_guild_settings s g true
      (str_or r.1.pfx s.defaultPfx, r.2)

/-- Embeds `DatabaseManager.set_welcome_channel`. -/
def set_welcome_channel (s : State) (guild_id : Int) (channel_id : Option Int) :
    GuildSettings × State :=
  get_guild_settings (upsert_guild_fields s guild_id (.setWelcome channel_id))
    guild_id false

/-- Embeds `DatabaseManager.set_moderator_role`. -/
def set_moderator_role (s : State) (guild_id : Int) (role_id : Option Int) :
    GuildSettings × State :=
  get_guild_settings (upsert_guild_fields s guild_id (.setMod role_id)) guild_id false

/-- Embeds `DatabaseManager.set_admin_role`. -/
def set_admin_role (s : State) (guild_id : Int) (role_id : Option Int) :
    GuildSettings × State :=
  get_guild_settings (upsert_guild_fields s guild_id (.setAdmin role_id)) guild_id false

/-- Embeds `DatabaseManager.get_welcome_channel_id`: cache-first read, project. -/
def get_welcome_channel_id (s : State) (guild_id : Int) : Option Int × State :=
  let r := get_guild_settings s guild_id true
  (r.1.welcome_channel_id, r.2)

/-- Embeds `DatabaseManager.get_moderator_role_id`. -/
def get_moderator_role_id (s : State) (guild_id : Int) : Option Int × State :=
  let r := get_guild_settings s guild_id true
  (r.1.mod_role_id, r.2)

/-- Embeds `DatabaseManager.get_admin_role_id`. -/
def get_admin_role_id (s : State) (guild_id : Int) : Option Int × State :=
  let r := get_guild_settings s guild_id true
  (r.1.admin_role_id, r.2)

/-- Embeds `DatabaseManager.clear_guild_settings`: delete the row, evict the cache
entry. -/
def clear_guild_settings (s : State) (guild_id : Int) : State :=
  { s with
      guilds := fun g => if g = guild_id then none else s.guilds g
      cache := fun g => if g = guild_id then none else s.cache g }

/-- Embeds `DatabaseManager.get_balance`: `int(row["balance"]) if row else 0`. -/
def get_balance (s : State) (user_id : Int) : Int :=
  (points_lookup s.points user_id).getD 0

/-- Embeds `DatabaseManager.add_balance`: read the current balance (0 for a missing
row), add the amount, upsert, and return the new balance. -/
def add_balance (s : State) (user_id : Int) (amount : Int) : Int × State :=
  let newBal := (points_lookup s.points user_id).getD 0 + amount
  (newBal, { s with points := points_upsert s.points user_id newBal })

/-- The `ORDER BY balance DESC, user_id ASC` comparison: row `a` comes no
later than row `b`. -/
def lb_ord (a b : Int × Int) : Prop :=
  b.2 < a.2 ∨ (a.2 = b.2 ∧ a.1 ≤ b.1)

instance : DecidableRel lb_ord :=
  fun a b => inferInstanceAs (Decidable (b.2 < a.2 ∨ (a.2 = b.2 ∧ a.1 ≤ b.1)))

instance : IsTotal (Int × Int) lb_ord :=
  ⟨fun a b => by unfold lb_ord; omega⟩

instance : IsTrans (Int × Int) lb_ord :=
  ⟨fun a b c hab hbc => by unfold lb_ord at *; omega⟩

instance : IsAntisymm (Int × Int) lb_ord :=
  ⟨fun a b hab hba => by
    obtain ⟨x, y⟩ := a
    obtain ⟨z, w⟩ := b
    unfold lb_ord at hab hba
    simp only [Prod.mk.injEq]
    constructor <;> omega⟩

/-- Embeds `DatabaseManager.leaderboard(limit)`: all `points` rows ordered by
balance descending then user_id ascending, truncated by `LIMIT ?`.
A negative bound in the sqlite `LIMIT` clause means "no limit", which is how a
negative Python `limit` reaches the query. -/
def leaderboard (s : State) (limit : Int) : List (Int × Int) :=
  let sorted := s.points.insertionSort lb_ord
  if limit < 0 then sorted else sorted.take limit.toNat

/-- A naive Python `datetime` value (the maintenance timestamps of this
repository are naive instants; the timezone member is not modelled because
no claim exercises it). -/
structure PyDateTime where
  year : Nat
  month : Nat
  day : Nat
  hour : Nat
  minute : Nat
  second : Nat
  microsecond : Nat
deriving DecidableEq

/-- The ASCII digit character for `n < 10`. -/
def digitChar (n : Nat) : Char := Char.ofNat (48 + n)

/-- Numeric value of an ASCII digit character. -/
def digitVal (c : Char) : Nat := c.toNat - 48

/-- Two-digit zero-padded decimal rendering (`%02d`). -/
def pad2 (n : Nat) : List Char := [digitChar (n / 10), digitChar (n % 10)]

/-- Four-digit zero-padded decimal rendering (`%04d`). -/
def pad4 (n : Nat) : List Char :=
  [digitChar (n / 1000), digitChar (n / 100 % 10), digitChar (n / 10 % 10),
    digitChar (n % 10)]

/-- Value of two ASCII digits. -/
def parse2 (a b : Char) : Nat := digitVal a * 10 + digitVal b

/-- Value of four ASCII digits. -/
def parse4 (a b c d : Char) : Nat :=
  digitVal a * 1000 + digitVal b * 100 + digitVal c * 10 + digitVal d

/-- Embeds `datetime.isoformat(timespec="seconds")` on a naive value: the string
`YYYY-MM-DDTHH:MM:SS`; sub-second precision is dropped (truncated, not
rounded). -/
def isoformat_seconds (t : PyDateTime) : String :=
  String.mk (pad4 t.year ++ '-' :: pad2 t.month ++ '-' :: pad2 t.day ++
    'T' :: pad2 t.hour ++ ':' :: pad2 t.minute ++ ':' :: pad2 t.second)

/-- Two ASCII digits as a number, `none` on a non-digit. -/
def digit2 (a b : Char) : Option Nat :=
  if a.isDigit ∧ b.isDigit then some (parse2 a b) else none

/-- Four ASCII digits as a number, `none` on a non-digit. -/
def digit4 (a b c d : Char) : Option Nat :=
  if a.isDigit ∧ b.isDigit ∧ c.isDigit ∧ d.isDigit then some (parse4 a b c d)
  else none

/-- Length of a calendar month, with the Gregorian leap-year rule — the
validation `datetime` applies to the day field. -/
def days_in_month (y m : Nat) : Nat :=
  if m = 2 then
    if (y % 4 = 0 ∧ y % 100 ≠ 0) ∨ y % 400 = 0 then 29 else 28
  else if m = 4 ∨ m = 6 ∨ m = 9 ∨ m = 11 then 30 else 31

/-- Microseconds denoted by a fractional-second digit run: the first six
digits, scaled; further digits are truncated away, as `fromisoformat`
does. -/
def frac_to_micro (ds : List Char) : Nat :=
  (ds.take 6).foldl (fun a c => a * 10 + digitVal c) 0 *
    10 ^ (6 - (ds.take 6).length)

/-- An optional fractional-second part: a dot or comma followed by at least
one digit; returns its microsecond value and the remaining input, `none`
when no fraction starts here. -/
def parse_frac : List Char → Option (Nat × List Char)
  | c :: rest =>
      if c = '.' ∨ c = ',' then
        match rest.takeWhile Char.isDigit with
        | [] => none
        | ds => some (frac_to_micro ds, rest.dropWhile Char.isDigit)
      else none
  | [] => none

/-- Validation of the input remaining after the time: nothing, `Z`/`z`, or a
sign followed by `HH`, `HH:MM` or `HH:MM:SS` with the offset strictly inside
one day, as `fromisoformat` requires (the compact `±HHMM` digit form and
fractional offset seconds of newer interpreters are not modelled). -/
def parse_offset : List Char → Bool
  | [] => true
  | ['Z'] => true
  | ['z'] => true
  | c :: h1 :: h2 :: rest =>
      decide (c = '+' ∨ c = '-') &&
        (match digit2 h1 h2 with
          | none => false
          | some oh =>
              decide (oh ≤ 23) &&
                (match rest with
                  | [] => true
                  | ':' :: m1 :: m2 :: rest2 =>
                      (match digit2 m1 m2 with
                        | none => false
                        | some om =>
                            decide (om ≤ 59) &&
                              (match rest2 with
                                | [] => true
                                | ':' :: s1 :: s2 :: rest3 =>
                                    (match digit2 s1 s2 with
                                      | none => false
                                      | some os =>
                                          decide (os ≤ 59) && rest3.isEmpty)
                                | _ => false))
                  | _ => false))
  | _ => false

/-- The time part `HH[:MM[:SS]]`, an optional fraction after the minutes or
seconds, then a valid offset or end of input; returns hour, minute, second
and microsecond. -/
def parse_time : List Char → Option (Nat × Nat × Nat × Nat)
  | h1 :: h2 :: rest =>
      (match digit2 h1 h2 with
        | none => none
        | some h =>
            if h ≤ 23 then
              match rest with
              | ':' :: m1 :: m2 :: rest2 =>
                  (match digit2 m1 m2 with
                    | none => none
                    | some mi =>
                        if mi ≤ 59 then
                          match rest2 with
                          | ':' :: s1 :: s2 :: rest3 =>
                              (match digit2 s1 s2 with
                                | none => none
                                | some sec =>
                                    if sec ≤ 59 then
                                      match parse_frac rest3 with
                                      | some (us, rest4) =>
                                          if parse_offset rest4 then
                                            some (h, mi, sec, us)
                                          else none
                                      | none =>
                                          if parse_offset rest3 then
                                            some (h, mi, sec, 0)
                                          else none
                                    else none)
                          | _ =>
                              match parse_frac rest2 with
                              | some (us, rest3) =>
                                  if parse_offset rest3 then some (h, mi, 0, us)
                                  else none
                              | none =>
                                  if parse_offset rest2 then some (h, mi, 0, 0)
                                  else none
                        else none)
              | _ => if parse_offset rest then some (h, 0, 0, 0) else none
            else none)
  | _ => none

/-- The date part `YYYY-MM-DD`, calendar-validated as `datetime` requires;
returns year, month, day and the remaining input. -/
def parse_date : List Char → Option (Nat × Nat × Nat × List Char)
  | y1 :: y2 :: y3 :: y4 :: '-' :: m1 :: m2 :: '-' :: d1 :: d2 :: rest =>
      (match digit4 y1 y2 y3 y4, digit2 m1 m2, digit2 d1 d2 with
        | some y, some m, some d =>
            if 1 ≤ y ∧ 1 ≤ m ∧ m ≤ 12 ∧ 1 ≤ d ∧ d ≤ days_in_month y m then
              some (y, m, d, rest)
            else none
        | _, _, _ => none)
  | _ => none

/-- Parser for the formats of `datetime.fromisoformat`: a calendar-validated
date `YYYY-MM-DD`, either alone (midnight) or followed by one separator
character (any character, as in newer interpreters) and a time
`HH[:MM[:SS]]` with optional fractional seconds and an optional
`Z`/`±HH[:MM[:SS]]` suffix. -/
def parse_iso (l : List Char) : Option PyDateTime :=
  match parse_date l with
  | none => none
  | some (y, m, d, rest) =>
      match rest with
      | [] =>
          some { year := y, month := m, day := d, hour := 0, minute := 0
                 second := 0, microsecond := 0 }
      | _ :: timechars =>
          match parse_time timechars with
          | some (h, mi, sec, us) =>
              some { year := y, month := m, day := d, hour := h, minute := mi
                     second := sec, microsecond := us }
          | none => none

/-- Embeds `datetime.fromisoformat`. The model agrees with the Python parser
on calendar-validated dates, on the `HH[:MM[:SS]]` times with fractional
seconds, and on `Z` and colon-separated offset suffixes — in particular on
every string this repository can store (`isoformat(timespec="seconds")`
output, naive or UTC-aware) and on clearly malformed text. Python variants
outside that grammar (compact all-digit forms, week dates, fringe fraction
and offset placements) are not modelled, and the tzinfo member of an aware
result is not modelled (the civil field values are kept); the theorems that
quantify over arbitrary stored strings do not depend on the exact
acceptance boundary. -/
def fromisoformat (s : String) : Option PyDateTime :=
  parse_iso s.data

/-- Embeds `DatabaseManager.record_last_save(when)`: upsert the fixed `metadata`
key `last_save` with the second-precision ISO encoding of the instant. -/
def record_last_save (s : State) (when : PyDateTime) : State :=
  { s with
      metadata := meta_upsert s.metadata "last_save" (isoformat_seconds when) }

/-- Embeds `DatabaseManager.get_last_save()`: read the `last_save` metadata value;
`None` (no row) and the empty string are falsy in
`datetime.fromisoformat(value) if value else None`, so both yield `none`;
a non-empty value is parsed, and a parse failure propagates as a raised
`ValueError`, modelled as `Except.error` carrying the offending string. -/
def get_last_save (s : State) : Except String (Option PyDateTime) :=
  match meta_lookup s.metadata "last_save" with
  | none => .ok none
  | some v =>
      if v = "" then .ok none
      else
        match fromisoformat v with
        | some t => .ok (some t)
        | none => .error v

/-- Modelled from the spec: `set_metadata_value(key, value)` is named by the
interface list of the spec and mirrored by the test double
`tests/test_points.py::FakeDatabase`, but `DatabaseManager` in
`src/core/database.py` does not define it. Per the spec it is a plain
upsert by key into the `metadata` table, last-write-wins. -/
def set_metadata_value (s : State) (key value : String) : State :=
  { s with metadata := meta_upsert s.metadata key value }

/-- Modelled from the spec: `get_metadata_value(key)` is named by the
interface list of the spec and mirrored by the test double, but `DatabaseManager` does
not define it. Per the spec it returns the stored string for the key, or
null when the key is absent. -/
def get_metadata_value (s : State) (key : String) : Option String × State :=
  (meta_lookup s.metadata key, s)

/-- A sequence of `add_balance` calls for one user: the list of returned
running totals paired with the final state. -/
def run_adds (s : State) (u : Int) : List Int → List Int × State
  | [] => ([], s)
  | d :: ds =>
      let r := add_balance s u d
      let rest := run_adds r.2 u ds
      (r.1 :: rest.1, rest.2)

/-- Running partial sums starting from `a`: the expected return values of a
sequence of `add_balance` calls. -/
def running_totals (a : Int) : List Int → List Int
  | [] => []
  | d :: ds => (a + d) :: running_totals (a + d) ds

/-- A sequence of `set_metadata_value` calls. -/
def apply_meta_writes (s : State) : List (String × String) → State
  | [] => s
  | (k, v) :: ws => apply_meta_writes (set_metadata_value s k v) ws

/-- The value of the most recent write to `key` in a sequence of
`(key, value)` writes, if any. -/
def last_write : List (String × String) → String → Option String
  | [], _ => none
  | (k, v) :: ws, key =>
      match last_write ws key with
      | some r => some r
      | none => if k = key then some v else none

/-- The settings cache is coherent with the `guild_settings` table: every
present cache entry equals the settings derived from the stored
row. -/
def cache_consistent (s : State) : Prop :=
  ∀ g v, s.cache g = some v → v = row_to_settings g (s.guilds g)

/-! ### Ledger lemmas -/

theorem points_lookup_upsert_self (l : List (Int × Int)) (u b : Int) :
    points_lookup (points_upsert l u b) u = some b := by
  induction l with
  | nil => simp [points_upsert, points_lookup]
  | cons hd tl ih =>
      obtain ⟨k, v⟩ := hd
      by_cases h : k = u
      · simp [points_upsert, h, points_lookup]
      · simp [points_upsert, h, points_lookup, ih]

theorem add_balance_fst (s : State) (u d : Int) :
    (add_balance s u d).1 = get_balance s u + d := rfl

theorem get_balance_add_balance (s : State) (u d : Int) :
    get_balance (add_balance s u d).2 u = get_balance s u + d := by
  simp [add_balance, get_balance, points_lookup_upsert_self]

theorem run_adds_spec (u : Int) (ds : List Int) :
    ∀ s : State,
      (run_adds s u ds).1 = running_totals (get_balance s u) ds ∧
      get_balance (run_adds s u ds).2 u = get_balance s u + ds.sum := by
  induction ds with
  | nil => intro s; simp [run_adds, running_totals]
  | cons d ds ih =>
      intro s
      obtain ⟨ih1, ih2⟩ := ih (add_balance s u d).2
      refine ⟨?_, ?_⟩
      · simp [run_adds, ih1, get_balance_add_balance, running_totals, add_balance_fst]
      · simp only [run_adds, ih2, get_balance_add_balance, List.sum_cons]
        omega

/-- C1: for every user, `get_balance` on a fresh database returns 0; after a
sequence of `add_balance` calls for the user, `get_balance` returns the sum
of the deltas; the sequence of values returned by the calls is the sequence
of running partial sums, and each individual `add_balance` returns the
total it stored. -/
theorem balance_accumulates (dp : String) (u : Int) (ds : List Int) :
    get_balance (initState dp) u = 0 ∧
    (run_adds (initState dp) u ds).1 = running_totals 0 ds ∧
    get_balance (run_adds (initState dp) u ds).2 u = ds.sum ∧
    ∀ (s : State) (d : Int),
      (add_balance s u d).1 = get_balance s u + d ∧
      get_balance (add_balance s u d).2 u = (add_balance s u d).1 := by
  have h0 : get_balance (initState dp) u = 0 := rfl
  obtain ⟨h1, h2⟩ := run_adds_spec u ds (initState dp)
  refine ⟨h0, ?_, ?_, ?_⟩
  · rw [h1, h0]
  · rw [h2, h0]; omega
  · intro s d
    exact ⟨add_balance_fst s u d,
      by rw [get_balance_add_balance, add_balance_fst]⟩

/-! ### Metadata lemmas -/

theorem meta_lookup_upsert (m : List (String × String)) (k v key : String) :
    meta_lookup (meta_upsert m k v) key =
      if k = key then some v else meta_lookup m key := by
  induction m with
  | nil => simp [meta_upsert, meta_lookup]
  | cons hd tl ih =>
      obtain ⟨k2, v2⟩ := hd
      by_cases h : k2 = k
      · subst h
        by_cases hk : k2 = key <;> simp [meta_upsert, meta_lookup, hk]
      · by_cases hk : k2 = key
        · subst hk
          have : ¬ k = k2 := fun hcon => h hcon.symm
          simp [meta_upsert, h, meta_lookup, this]
        · simp [meta_upsert, h, meta_lookup, hk, ih]

theorem apply_meta_writes_lookup (key : String) (ws : List (String × String)) :
    ∀ s : State,
      (get_metadata_value (apply_meta_writes s ws) key).1 =
        match last_write ws key with
        | some v => some v
        | none => (get_metadata_value s key).1 := by
  induction ws with
  | nil => intro s; simp [apply_meta_writes, last_write]
  | cons hd tl ih =>
      obtain ⟨k, v⟩ := hd
      intro s
      rw [apply_meta_writes, ih (set_metadata_value s k v)]
      simp only [last_write, get_metadata_value, set_metadata_value,
        meta_lookup_upsert]
      cases last_write tl key with
      | some r => rfl
      | none => by_cases hk : k = key <;> simp [hk]

/-- C8: the generic metadata operations are a plain upsert by key with
last-write-wins reads: an absent key reads as null on a fresh database, a
single write reads back, and after any sequence of writes the read of a key
returns the most recent value written to it (or the prior stored value when
the sequence never wrote the key). `get_metadata_value` and
`set_metadata_value` are modelled from the spec because
`src/core/database.py` does not define them (only the interface list of the spec
and the `FakeDatabase` test double in `tests/test_points.py` declare
them). -/
theorem metadata_last_write_wins (dp key value : String) (s : State)
    (ws : List (String × String)) :
    (get_metadata_value (initState dp) key).1 = none ∧
    (get_metadata_value (set_metadata_value s key value) key).1 = some value ∧
    (get_metadata_value (apply_meta_writes s ws) key).1 =
      (match last_write ws key with
        | some v => some v
        | none => (get_metadata_value s key).1) := by
  refine ⟨rfl, ?_, apply_meta_writes_lookup key ws s⟩
  simp [get_metadata_value, set_metadata_value, meta_lookup_upsert]

/-! ### Guild-settings lemmas -/

theorem refresh_fst (s : State) (g : Int) :
    (refresh s g).1 = row_to_settings g (s.guilds g) := rfl

theorem refresh_guilds (s : State) (g : Int) :
    (refresh s g).2.guilds = s.guilds := rfl

theorem refresh_cache (s : State) (g g2 : Int) :
    (refresh s g).2.cache g2 =
      if g2 = g then some (row_to_settings g (s.guilds g)) else s.cache g2 := rfl

theorem upsert_guilds (s : State) (g : Int) (u : GuildUpdate) (g2 : Int) :
    (upsert_guild_fields s g u).guilds g2 =
      if g2 = g then some (applyUpdate ((s.guilds g).getD emptyRow) u)
      else s.guilds g2 := rfl

theorem upsert_cache (s : State) (g : Int) (u : GuildUpdate) (g2 : Int) :
    (upsert_guild_fields s g u).cache g2 =
      if g2 = g then none else s.cache g2 := rfl

theorem clear_guilds (s : State) (g g2 : Int) :
    (clear_guild_settings s g).guilds g2 =
      if g2 = g then none else s.guilds g2 := rfl

theorem clear_cache (s : State) (g g2 : Int) :
    (clear_guild_settings s g).cache g2 =
      if g2 = g then none else s.cache g2 := rfl

theorem cache_consistent_init (dp : String) : cache_consistent (initState dp) :=
  fun _ _ h => Option.noConfusion h

theorem cache_consistent_refresh (s : State) (hs : cache_consistent s) (g : Int) :
    cache_consistent (refresh s g).2 := by
  intro g2 v h
  rw [refresh_cache] at h
  by_cases hg : g2 = g
  · subst hg
    rw [if_pos rfl] at h
    exact (Option.some.inj h).symm
  · rw [if_neg hg] at h
    exact hs g2 v h

theorem cache_consistent_get (s : State) (hs : cache_consistent s) (g : Int)
    (b : Bool) : cache_consistent (get_guild_settings s g b).2 := by
  cases b with
  | false => exact cache_consistent_refresh s hs g
  | true =>
      cases hc : s.cache g with
      | none =>
          have he : get_guild_settings s g true = refresh s g := by
            simp [get_guild_settings, hc]
          rw [he]
          exact cache_consistent_refresh s hs g
      | some cached =>
          have he : get_guild_settings s g true = (cached, s) := by
            simp [get_guild_settings, hc]
          rw [he]
          exact hs

theorem cache_consistent_upsert (s : State) (hs : cache_consistent s) (g : Int)
    (u : GuildUpdate) : cache_consistent (upsert_guild_fields s g u) := by
  intro g2 v h
  rw [upsert_cache] at h
  by_cases hg : g2 = g
  · rw [if_pos hg] at h
    exact Option.noConfusion h
  · rw [if_neg hg] at h
    rw [upsert_guilds, if_neg hg]
    exact hs g2 v h

theorem cache_consistent_clear (s : State) (hs : cache_consistent s) (g : Int) :
    cache_consistent (clear_guild_settings s g) := by
  intro g2 v h
  rw [clear_cache] at h
  by_cases hg : g2 = g
  · rw [if_pos hg] at h
    exact Option.noConfusion h
  · rw [if_neg hg] at h
    rw [clear_guilds, if_neg hg]
    exact hs g2 v h

theorem get_after_mutate (s : State) (g : Int) (u : GuildUpdate) :
    (get_guild_settings (refresh (upsert_guild_fields s g u) g).2 g true).1 =
      row_to_settings g ((refresh (upsert_guild_fields s g u) g).2.guilds g) := by
  have hc : (refresh (upsert_guild_fields s g u) g).2.cache g =
      some (row_to_settings g ((upsert_guild_fields s g u).guilds g)) := by
    rw [refresh_cache, if_pos rfl]
  simp [get_guild_settings, hc, refresh_guilds]

/-- C3: each single-field mutator performs a partial upsert on the row of its guild: the row stored after the call is the previous row — an all-null row
when none existed — with only the named column replaced, so every other
previously-set column is left unchanged, also when the named column is
being cleared to null. -/
theorem mutators_partial_upsert (s : State) (g : Int) :
    (∀ p, (set_guild_pfx s g p).2.guilds g =
        some { (s.guilds g).getD emptyRow with pfx := normalize_pfx p }) ∧
    (∀ c, (set_welcome_channel s g c).2.guilds g =
        some { (s.guilds g).getD emptyRow with welcome_channel_id := c }) ∧
    (∀ r, (set_moderator_role s g r).2.guilds g =
        some { (s.guilds g).getD emptyRow with mod_role_id := r }) ∧
    (∀ r, (set_admin_role s g r).2.guilds g =
        some { (s.guilds g).getD emptyRow with admin_role_id := r }) := by
  refine ⟨fun p => ?_, fun c => ?_, fun r => ?_, fun r => ?_⟩
  · simp [set_guild_pfx, get_guild_settings, refresh, upsert_guild_fields, applyUpdate]
  · simp [set_welcome_channel, get_guild_settings, refresh, upsert_guild_fields,
      applyUpdate]
  · simp [set_moderator_role, get_guild_settings, refresh, upsert_guild_fields,
      applyUpdate]
  · simp [set_admin_role, get_guild_settings, refresh, upsert_guild_fields, applyUpdate]

/-- C4: the cache-coherence invariant — every present cache entry equals the
settings derived from the stored row of the guild — holds of a fresh manager and
is preserved by the accessor in both cache modes, by all four single-field
mutators and by `clear_guild_settings`; moreover after any mutator the very
next cache-first accessor call for that guild returns exactly the settings
derived from the freshly written row (no stale read), and the return value of each
mutator is that same freshly reloaded post-write settings value. -/
theorem settings_cache_coherence (s : State) (hs : cache_consistent s) (g : Int) :
    (∀ dp, cache_consistent (initState dp)) ∧
    (∀ b, cache_consistent (get_guild_settings s g b).2) ∧
    (∀ p, cache_consistent (set_guild_pfx s g p).2 ∧
      (get_guild_settings (set_guild_pfx s g p).2 g true).1 =
        row_to_settings g ((set_guild_pfx s g p).2.guilds g) ∧
      (set_guild_pfx s g p).1 =
        row_to_settings g ((set_guild_pfx s g p).2.guilds g)) ∧
    (∀ c, cache_consistent (set_welcome_channel s g c).2 ∧
      (get_guild_settings (set_welcome_channel s g c).2 g true).1 =
        row_to_settings g ((set_welcome_channel s g c).2.guilds g) ∧
      (set_welcome_channel s g c).1 =
        row_to_settings g ((set_welcome_channel s g c).2.guilds g)) ∧
    (∀ r, cache_consistent (set_moderator_role s g r).2 ∧
      (get_guild_settings (set_moderator_role s g r).2 g true).1 =
        row_to_settings g ((set_moderator_role s g r).2.guilds g) ∧
      (set_moderator_role s g r).1 =
        row_to_settings g ((set_moderator_role s g r).2.guilds g)) ∧
    (∀ r, cache_consistent (set_admin_role s g r).2 ∧
      (get_guild_settings (set_admin_role s g r).2 g true).1 =
        row_to_settings g ((set_admin_role s g r).2.guilds g) ∧
      (set_admin_role s g r).1 =
        row_to_settings g ((set_admin_role s g r).2.guilds g)) ∧
    cache_consistent (clear_guild_settings s g) ∧
    (get_guild_settings (clear_guild_settings s g) g true).1 =
      row_to_settings g ((clear_guild_settings s g).guilds g) := by
  refine ⟨cache_consistent_init, cache_consistent_get s hs g,
    fun p => ⟨cache_consistent_refresh _ (cache_consistent_upsert s hs g _) g,
      get_after_mutate s g _, rfl⟩,
    fun c => ⟨cache_consistent_refresh _ (cache_consistent_upsert s hs g _) g,
      get_after_mutate s g _, rfl⟩,
    fun r => ⟨cache_consistent_refresh _ (cache_consistent_upsert s hs g _) g,
      get_after_mutate s g _, rfl⟩,
    fun r => ⟨cache_consistent_refresh _ (cache_consistent_upsert s hs g _) g,
      get_after_mutate s g _, rfl⟩,
    cache_consistent_clear s hs g, ?_⟩
  have hc : (clear_guild_settings s g).cache g = none := by
    rw [clear_cache, if_pos rfl]
  simp [get_guild_settings, hc, refresh_fst]

/-- C4 witness: a concrete instantiation — starting from a fresh manager
(whose empty cache is trivially consistent), setting a welcome channel
preserves cache consistency and the very next cache-first accessor returns
the settings derived from the freshly written row. -/
theorem settings_cache_coherence_witness :
    cache_consistent (set_welcome_channel (initState "!") 42 (some 9001)).2 ∧
    (get_guild_settings (set_welcome_channel (initState "!") 42 (some 9001)).2
        42 true).1 =
      row_to_settings 42
        ((set_welcome_channel (initState "!") 42 (some 9001)).2.guilds 42) := by
  have h := settings_cache_coherence (initState "!")
    (fun _ _ hv => Option.noConfusion hv) 42
  exact ⟨(h.2.2.2.1 (some 9001)).1, (h.2.2.2.1 (some 9001)).2.1⟩

/-- C5: `set_guild_prefix` stores the value trimmed of surrounding
whitespace, and stores null — clearing the override — when the trimmed
result is empty; the next `get_prefix` returns the trimmed non-empty value,
or the process default when the override was cleared; concretely, per the
examples of the spec over a fresh manager with default "!": setting "?" reads
back "?", setting "  *  " reads back "*", and resetting reads back "!". -/
theorem pfx_normalization_roundtrip (s : State) (g : Int) (p : String) :
    ((set_guild_pfx s g (some p)).2.guilds g).map GuildRow.pfx =
      some (if py_strip p = "" then none else some (py_strip p)) ∧
    (get_pfx (set_guild_pfx s g (some p)).2 (some g)).1 =
      (if py_strip p = "" then s.defaultPfx else py_strip p) ∧
    (get_pfx (reset_guild_pfx s g).2 (some g)).1 = s.defaultPfx ∧
    (get_pfx (set_guild_pfx (initState "!") 123456789 (some "?")).2
        (some 123456789)).1 = "?" ∧
    (get_pfx (set_guild_pfx (initState "!") 123456789 (some "  *  ")).2
        (some 123456789)).1 = "*" ∧
    (get_pfx (reset_guild_pfx
          (set_guild_pfx (initState "!") 123456789 (some "?")).2 123456789).2
        (some 123456789)).1 = "!" := by
  refine ⟨?_, ?_, ?_, by rfl, by rfl, by rfl⟩
  · simp [set_guild_pfx, get_guild_settings, refresh, upsert_guild_fields,
      applyUpdate, normalize_pfx]
  · by_cases ht : py_strip p = "" <;>
      simp [get_pfx, get_guild_settings, set_guild_pfx, refresh,
        upsert_guild_fields, applyUpdate, normalize_pfx, row_to_settings,
        str_or, ht]
  · simp [get_pfx, get_guild_settings, reset_guild_pfx, refresh,
      upsert_guild_fields, applyUpdate, row_to_settings, str_or]

/-- C6: for a guild with no settings row and no cache entry — a fresh
database, or any guild right after `clear_guild_settings` — the accessor
returns (rather than raising; every modelled operation is a total function)
a fully-populated all-null `GuildSettings` keyed to the guild id, and every
derived accessor returns its null projection, `get_prefix` falling back to
the process default. -/
theorem missing_row_all_null (s : State) (g : Int)
    (hrow : s.guilds g = none) (hcache : s.cache g = none) :
    (get_guild_settings s g true).1 =
      { guild_id := g, pfx := none, welcome_channel_id := none,
        mod_role_id := none, admin_role_id := none } ∧
    (get_welcome_channel_id s g).1 = none ∧
    (get_moderator_role_id s g).1 = none ∧
    (get_admin_role_id s g).1 = none ∧
    (get_pfx s (some g)).1 = s.defaultPfx ∧
    ∀ (s2 : State) (g2 : Int),
      (get_guild_settings (clear_guild_settings s2 g2) g2 true).1 =
        { guild_id := g2, pfx := none, welcome_channel_id := none,
          mod_role_id := none, admin_role_id := none } := by
  have he : get_guild_settings s g true = refresh s g := by
    simp [get_guild_settings, hcache]
  have hr : (refresh s g).1 = row_to_settings g none := by rw [refresh_fst, hrow]
  refine ⟨?_, ?_, ?_, ?_, ?_, ?_⟩
  · rw [he, hr]; rfl
  · show (get_guild_settings s g true).1.welcome_channel_id = none
    rw [he, hr]; rfl
  · show (get_guild_settings s g true).1.mod_role_id = none
    rw [he, hr]; rfl
  · show (get_guild_settings s g true).1.admin_role_id = none
    rw [he, hr]; rfl
  · show str_or (get_guild_settings s g true).1.pfx s.defaultPfx = s.defaultPfx
    rw [he, hr]; rfl
  · intro s2 g2
    have hc2 : (clear_guild_settings s2 g2).cache g2 = none := by
      rw [clear_cache, if_pos rfl]
    have he2 : get_guild_settings (clear_guild_settings s2 g2) g2 true =
        refresh (clear_guild_settings s2 g2) g2 := by
      simp [get_guild_settings, hc2]
    rw [he2, refresh_fst, clear_guilds, if_pos rfl]
    rfl

/-- C6 witness: the accessor on a fresh manager (no row, no cache entry for
guild 7) returns the synthesized all-null settings keyed to 7. -/
theorem missing_row_all_null_witness :
    (get_guild_settings (initState "!") 7 true).1 =
      { guild_id := 7, pfx := none, welcome_channel_id := none,
        mod_role_id := none, admin_role_id := none } :=
  (missing_row_all_null (initState "!") 7 rfl rfl).1

/-! ### Leaderboard theorems -/

/-- C2 counterexample: the length bound of the claim is stated for every limit,
but with one ledger row (user 3, balance 250) and limit `-1` the query
returns the row — the negative limit is passed through to the sqlite `LIMIT` clause,
which treats it as unbounded — and a length of 1 is not at most `-1`. -/
theorem leaderboard_length_bound_cex :
    leaderboard (add_balance (initState "!") 3 250).2 (-1) = [(3, 250)] ∧
    ¬ (((leaderboard (add_balance (initState "!") 3 250).2 (-1)).length : Int) ≤
        (-1 : Int)) := by
  refine ⟨rfl, ?_⟩
  rw [(rfl :
    leaderboard (add_balance (initState "!") 3 250).2 (-1) = [(3, 250)])]
  decide

/-- C2 (amended): for every ledger state and every NON-NEGATIVE limit,
`leaderboard(limit)` returns a sequence of (user_id, balance) pairs of
length at most `limit` (default 5), each drawn from the `points` table,
sorted by balance descending with ties broken by ascending user_id; the
order is a total, antisymmetric one, so the sorted result is the unique
sorted arrangement of the rows — repeated queries over identical data
return identical rankings. (For negative limits the length bound fails;
see the counterexample and C10.) The concrete example of the spec is included:
with balances {3:250, 4:150, 5:50} the result is
[(3,250), (4,150), (5,50)]. -/
theorem leaderboard_spec (s : State) (limit : Int) (hl : 0 ≤ limit) :
    ((leaderboard s limit).length : Int) ≤ limit ∧
    List.Sorted lb_ord (leaderboard s limit) ∧
    (∀ x ∈ leaderboard s limit, x ∈ s.points) ∧
    (∀ l : List (Int × Int), l.Perm s.points → List.Sorted lb_ord l →
      l = s.points.insertionSort lb_ord) ∧
    leaderboard
      (add_balance (add_balance (add_balance
        (initState "!") 3 250).2 4 150).2 5 50).2 5 =
      [(3, 250), (4, 150), (5, 50)] := by
  have he : leaderboard s limit = (s.points.insertionSort lb_ord).take limit.toNat := by
    rw [leaderboard, if_neg (by omega)]
  refine ⟨?_, ?_, ?_, ?_, by rfl⟩
  · rw [he]
    have h1 := List.length_take limit.toNat (s.points.insertionSort lb_ord)
    have h2 : limit.toNat = limit := Int.toNat_of_nonneg hl
    omega
  · rw [he]
    exact List.Pairwise.sublist (List.take_sublist _ _)
      (List.sorted_insertionSort lb_ord s.points)
  · intro x hx
    rw [he] at hx
    exact (List.perm_insertionSort lb_ord s.points).mem_iff.mp
      ((List.take_sublist _ _).mem hx)
  · intro l hp hsorted
    exact List.eq_of_perm_of_sorted
      (hp.trans (List.perm_insertionSort lb_ord s.points).symm) hsorted
      (List.sorted_insertionSort lb_ord s.points)

/-- C2 witness: the length bound at a concrete state and the default
limit 5. -/
theorem leaderboard_spec_witness :
    ((leaderboard
        (add_balance (add_balance (add_balance
          (initState "!") 3 250).2 4 150).2 5 50).2 5).length : Int) ≤ 5 :=
  (leaderboard_spec
    (add_balance (add_balance (add_balance
      (initState "!") 3 250).2 4 150).2 5 50).2 5 (by decide)).1

/-- C10: for every negative limit, `leaderboard(limit)` returns every row of
the points ledger — the negative limit reaches the sqlite `LIMIT` clause, where it
means unbounded — still sorted by balance descending with ties broken by
ascending user_id, rather than an empty or bounded sequence. -/
theorem leaderboard_negative_limit (s : State) (limit : Int) (hl : limit < 0) :
    (leaderboard s limit).Perm s.points ∧
    List.Sorted lb_ord (leaderboard s limit) ∧
    (leaderboard s limit).length = s.points.length := by
  have he : leaderboard s limit = s.points.insertionSort lb_ord := by
    rw [leaderboard, if_pos hl]
  rw [he]
  exact ⟨List.perm_insertionSort lb_ord s.points,
    List.sorted_insertionSort lb_ord s.points,
    (List.perm_insertionSort lb_ord s.points).length_eq⟩

/-- C10 witness: with three ledger rows and limit `-1`, every row comes
back. -/
theorem leaderboard_negative_limit_witness :
    (leaderboard
        (add_balance (add_balance (add_balance
          (initState "!") 10 5).2 11 5).2 12 7).2 (-1)).length =
      (add_balance (add_balance (add_balance
        (initState "!") 10 5).2 11 5).2 12 7).2.points.length :=
  (leaderboard_negative_limit
    (add_balance (add_balance (add_balance
      (initState "!") 10 5).2 11 5).2 12 7).2 (-1) (by decide)).2.2

/-! ### Timestamp lemmas -/

theorem digitVal_digitChar (n : Nat) (h : n < 10) :
    digitVal (digitChar n) = n := by
  interval_cases n <;> rfl

theorem isDigit_digitChar (n : Nat) (h : n < 10) :
    (digitChar n).isDigit = true := by
  interval_cases n <;> rfl

theorem digit2_pad2 (n : Nat) (h : n < 100) :
    digit2 (digitChar (n / 10)) (digitChar (n % 10)) = some n := by
  rw [digit2,
    if_pos ⟨isDigit_digitChar _ (by omega), isDigit_digitChar _ (by omega)⟩,
    parse2, digitVal_digitChar _ (by omega), digitVal_digitChar _ (by omega)]
  congr 1
  omega

theorem digit4_pad4 (n : Nat) (h : n < 10000) :
    digit4 (digitChar (n / 1000)) (digitChar (n / 100 % 10))
      (digitChar (n / 10 % 10)) (digitChar (n % 10)) = some n := by
  rw [digit4,
    if_pos ⟨isDigit_digitChar _ (by omega), isDigit_digitChar _ (by omega),
      isDigit_digitChar _ (by omega), isDigit_digitChar _ (by omega)⟩,
    parse4, digitVal_digitChar _ (by omega), digitVal_digitChar _ (by omega),
    digitVal_digitChar _ (by omega), digitVal_digitChar _ (by omega)]
  congr 1
  omega

theorem days_in_month_le_31 (y m : Nat) : days_in_month y m ≤ 31 := by
  unfold days_in_month
  split_ifs <;> omega

theorem fromisoformat_isoformat (t : PyDateTime)
    (hy1 : 1 ≤ t.year) (hy : t.year ≤ 9999) (hmo1 : 1 ≤ t.month)
    (hmo : t.month ≤ 12) (hd1 : 1 ≤ t.day)
    (hd : t.day ≤ days_in_month t.year t.month)
    (hh : t.hour ≤ 23) (hmi : t.minute ≤ 59) (hx : t.second ≤ 59) :
    fromisoformat (isoformat_seconds t) = some { t with microsecond := 0 } := by
  obtain ⟨y, mo, d, h, mi, sec, us⟩ := t
  dsimp only at hy1 hy hmo1 hmo hd1 hd hh hmi hx
  have htime : parse_time (pad2 h ++ ':' :: pad2 mi ++ ':' :: pad2 sec) =
      some (h, mi, sec, 0) := by
    simp only [pad2, List.cons_append, List.nil_append, parse_time,
      digit2_pad2 h (by omega), digit2_pad2 mi (by omega),
      digit2_pad2 sec (by omega), parse_frac, parse_offset, hh, hmi, hx,
      if_true]
  have hdate : parse_date (pad4 y ++ '-' :: pad2 mo ++ '-' :: pad2 d ++ 'T' ::
      pad2 h ++ ':' :: pad2 mi ++ ':' :: pad2 sec) =
      some (y, mo, d, 'T' :: (pad2 h ++ ':' :: pad2 mi ++ ':' :: pad2 sec)) := by
    have h31 := days_in_month_le_31 y mo
    simp only [pad4, pad2, List.cons_append, List.nil_append, parse_date,
      digit4_pad4 y (by omega), digit2_pad2 mo (by omega),
      digit2_pad2 d (by omega)]
    rw [if_pos ⟨hy1, hmo1, hmo, hd1, hd⟩]
  show parse_iso (pad4 y ++ '-' :: pad2 mo ++ '-' :: pad2 d ++ 'T' :: pad2 h ++
    ':' :: pad2 mi ++ ':' :: pad2 sec) = _
  simp only [parse_iso, hdate, htime]

theorem isoformat_ne_empty (t : PyDateTime) : isoformat_seconds t ≠ "" := by
  intro hcon
  have hdata : (isoformat_seconds t).data = [] := by rw [hcon]
  simp [isoformat_seconds, pad4, pad2] at hdata

theorem meta_lookup_record (s : State) (t : PyDateTime) :
    meta_lookup (record_last_save s t).metadata "last_save" =
      some (isoformat_seconds t) := by
  show meta_lookup (meta_upsert s.metadata "last_save" (isoformat_seconds t))
    "last_save" = _
  rw [meta_lookup_upsert, if_pos rfl]

/-- C7: `record_last_save(T)` stores under the fixed metadata key
`last_save` the ISO-8601 second-precision encoding of T, and a following
`get_last_save()` returns T truncated to second precision (microseconds
dropped); on a fresh database — `record_last_save` never called —
`get_last_save()` returns null. The hypotheses are the field bounds every
Python `datetime` instance satisfies, the day bound being the calendar
month length. -/
theorem last_save_roundtrip (s : State) (t : PyDateTime)
    (hy1 : 1 ≤ t.year) (hy : t.year ≤ 9999) (hmo1 : 1 ≤ t.month)
    (hmo : t.month ≤ 12) (hd1 : 1 ≤ t.day)
    (hd : t.day ≤ days_in_month t.year t.month)
    (hh : t.hour ≤ 23) (hmi : t.minute ≤ 59) (hx : t.second ≤ 59) :
    get_last_save (record_last_save s t) =
      .ok (some { t with microsecond := 0 }) ∧
    meta_lookup (record_last_save s t).metadata "last_save" =
      some (isoformat_seconds t) ∧
    ∀ dp, get_last_save (initState dp) = .ok none := by
  refine ⟨?_, meta_lookup_record s t, fun dp => rfl⟩
  simp [get_last_save, meta_lookup_record s t, isoformat_ne_empty t,
    fromisoformat_isoformat t hy1 hy hmo1 hmo hd1 hd hh hmi hx]

/-- C7 witness: recording 2024-05-17T12:34:56 (with 789 microseconds) and
reading back returns the instant truncated to seconds. -/
theorem last_save_roundtrip_witness :
    get_last_save (record_last_save (initState "!")
        { year := 2024, month := 5, day := 17, hour := 12, minute := 34,
          second := 56, microsecond := 789 }) =
      .ok (some { year := 2024, month := 5, day := 17, hour := 12,
                  minute := 34, second := 56, microsecond := 0 }) :=
  (last_save_roundtrip (initState "!")
    { year := 2024, month := 5, day := 17, hour := 12, minute := 34,
      second := 56, microsecond := 789 }
    (by decide) (by decide) (by decide) (by decide) (by decide) (by decide)
    (by decide) (by decide) (by decide)).1

/-- C9 counterexample: with the stored `last_save` value "not-a-date" — a
string `datetime.fromisoformat` rejects — `get_last_save` propagates the
parse failure as an error (the source raises `ValueError`), rather than
treating the value as absent and returning null as the claim states. -/
theorem malformed_last_save_raises :
    get_last_save
        { initState "!" with metadata := [("last_save", "not-a-date")] } =
      .error "not-a-date" ∧
    get_last_save
        { initState "!" with metadata := [("last_save", "not-a-date")] } ≠
      .ok none := by
  refine ⟨rfl, ?_⟩
  intro hcon
  rw [(rfl : get_last_save
      { initState "!" with metadata := [("last_save", "not-a-date")] } =
    .error "not-a-date")] at hcon
  exact Except.noConfusion hcon

/-- C9 (amended): `get_last_save` returns null exactly when no `last_save`
value is stored or the stored value is the empty string (falsy under the
guard `if value` of the source); a stored non-empty value is never treated
as absent — the call either returns the parsed timestamp or propagates the
parse failure (`datetime.fromisoformat` raises `ValueError`) to the caller,
as it does on the stored value "not-a-date". This holds whatever the exact
acceptance boundary of the parser: no branch of the source maps a non-empty
stored value to a null result. -/
theorem get_last_save_no_null_masking (s : State) (v : String)
    (hlook : meta_lookup s.metadata "last_save" = some v) (hne : v ≠ "") :
    get_last_save s ≠ .ok none ∧
    (get_last_save s = .error v ∨ ∃ t, get_last_save s = .ok (some t)) ∧
    (∀ s2 : State, meta_lookup s2.metadata "last_save" = none →
      get_last_save s2 = .ok none) ∧
    (∀ s2 : State, meta_lookup s2.metadata "last_save" = some "" →
      get_last_save s2 = .ok none) ∧
    get_last_save
        { initState "!" with metadata := [("last_save", "not-a-date")] } =
      .error "not-a-date" := by
  have hform : get_last_save s =
      match fromisoformat v with
      | some t => .ok (some t)
      | none => .error v := by
    simp [get_last_save, hlook, hne]
  refine ⟨?_, ?_, ?_, ?_, rfl⟩
  · rw [hform]
    cases fromisoformat v <;> simp
  · rw [hform]
    cases fromisoformat v with
    | none => exact Or.inl rfl
    | some t => exact Or.inr ⟨t, rfl⟩
  · intro s2 h2
    simp [get_last_save, h2]
  · intro s2 h2
    simp [get_last_save, h2]

/-- C9 witness for the amended claim: a stored non-empty value "garbage" is
not masked as a null read. -/
theorem get_last_save_no_null_masking_witness :
    get_last_save { initState "!" with metadata := [("last_save", "garbage")] } ≠
      .ok none :=
  (get_last_save_no_null_masking
    { initState "!" with metadata := [("last_save", "garbage")] } "garbage"
    rfl (by decide)).1

end DiscordBot
